import Mathlib

/-!
# Verification of `dreamhost_backup.py`

A shallow embedding of the concurrent backup downloader in
`src/dreamhost_backup.py`, together with theorems settling the claims of the
specification.

Modelling conventions:
* Strings of the Python program are Lean `String`s; byte strings (download
  chunks, file contents) are also modelled as `String`s of their bytes.
* Percent-decoding (`urllib.parse.unquote`) is modelled at byte granularity:
  each decoded byte becomes the character with that code point.  This agrees
  exactly with Python for ASCII bytes (all inputs relevant here); multi-byte
  UTF-8 decoding of bytes at or above 0x80 is not modelled.
* The filesystem is an explicit state: a list of created directories and an
  association list of files (most recent write first), so `open(p, "wb")`
  is a prepend and reads find the latest write.
* Network behaviour is an environment `DlEnv` mapping each URL to either a
  response (status, optional content-length header, stream of chunk events)
  or an exception raised by `session.get`.  I/O errors during streaming are
  explicit `ioError` events in the stream.
* The `asyncio.Semaphore(3)` concurrency structure of `main` is modelled as
  a small-step transition system over task phases; the single-run effect on
  the filesystem is modelled by the linearisation `runAll` (each task writes
  only its own derived file, so any interleaving yields the same file map).
-/

/-! ## Generic character-list helpers -/

/-- Split a list at the first occurrence of `sep`: returns the part strictly
before the separator and, when the separator occurs, the part strictly after
it.  Mirrors Python `str.split(sep, 1)` / `str.find(sep)`. -/
def splitFirst (sep : Char) : List Char → List Char × Option (List Char)
  | [] => ([], none)
  | c :: rest =>
      if c = sep then ([], some rest)
      else (c :: (splitFirst sep rest).1, (splitFirst sep rest).2)

/-- Take characters until one of `stops` is hit; the remainder keeps the
stopping character.  Mirrors CPython `_splitnetloc`. -/
def takeUntilAny (stops : List Char) : List Char → List Char × List Char
  | [] => ([], [])
  | c :: rest =>
      if c ∈ stops then ([], c :: rest)
      else (c :: (takeUntilAny stops rest).1, (takeUntilAny stops rest).2)

/-- Boolean test: `pat` occurs at the head of the list. -/
def leadsWith : List Char → List Char → Bool
  | [], _ => true
  | _ :: _, [] => false
  | a :: as, b :: bs => a == b && leadsWith as bs

/-- Boolean test: `pat` occurs somewhere in the list (Python `pat in s`). -/
def occursIn (pat : List Char) : List Char → Bool
  | [] => pat.isEmpty
  | c :: rest => leadsWith pat (c :: rest) || occursIn pat rest

/-- Boolean test: the list ends with `pat`. -/
def endsWithB (pat l : List Char) : Bool := leadsWith pat.reverse l.reverse

/-! ## `urllib.parse.urlparse`: the path component

`clean_filename` (source lines 37-43) uses only `urlparse(url).path`.  The
following definitions reproduce how CPython's `urlsplit`/`urlparse` arrive at
the `path` attribute: strip a valid scheme prefix, strip a `//netloc` part,
drop the fragment (after the first `#`), drop the query (after the first
`?`), and finally split `;params` off the last path segment. -/

/-- Characters allowed in a URL scheme (CPython `scheme_chars`). -/
def schemeChar (c : Char) : Bool := c.isAlphanum || c == '+' || c == '-' || c == '.'

/-- Strip `scheme:` when the text before the first `:` is a valid scheme
(nonempty, leading ASCII letter, all scheme characters). -/
def afterScheme (l : List Char) : List Char :=
  match splitFirst ':' l with
  | (before, some rest) =>
      match before with
      | [] => l
      | c :: _ => if c.isAlpha && before.all schemeChar then rest else l
  | (_, none) => l

/-- Strip a leading `//netloc`; the netloc extends to the next `/`, `?` or
`#`, which stays in the remainder. -/
def afterNetloc (l : List Char) : List Char :=
  match l with
  | '/' :: '/' :: rest => (takeUntilAny ['/', '?', '#'] rest).2
  | _ => l

/-- Everything before the first occurrence of `sep` (the whole list if the
separator is absent). -/
def dropFromFirst (sep : Char) (l : List Char) : List Char := (splitFirst sep l).1

/-- CPython `_splitparams`: remove `;params` from the last path segment. -/
def splitParams (l : List Char) : List Char :=
  if l.contains '/' then
    (l.take (l.length - (splitFirst '/' l.reverse).1.reverse.length))
      ++ dropFromFirst ';' (splitFirst '/' l.reverse).1.reverse
  else
    dropFromFirst ';' l

/-- The `path` attribute of `urlparse` on the given URL text. -/
def urlPathChars (l : List Char) : List Char :=
  splitParams (splitFirst '?' (splitFirst '#' (afterNetloc (afterScheme l))).1).1

/-! ## `urllib.parse.unquote` (byte-level) -/

/-- Value of a hexadecimal digit, if any. -/
def hexVal (c : Char) : Option Nat :=
  if '0' ≤ c ∧ c ≤ '9' then some (c.toNat - '0'.toNat)
  else if 'a' ≤ c ∧ c ≤ 'f' then some (c.toNat - 'a'.toNat + 10)
  else if 'A' ≤ c ∧ c ≤ 'F' then some (c.toNat - 'A'.toNat + 10)
  else none

/-- Percent-decoding: `%XY` with two hex digits becomes the byte `16*X+Y`;
an invalid escape is kept literally, as in Python. -/
def unquoteList : List Char → List Char
  | [] => []
  | '%' :: a :: b :: rest =>
      match hexVal a, hexVal b with
      | some x, some y => Char.ofNat (16 * x + y) :: unquoteList rest
      | _, _ => '%' :: unquoteList (a :: b :: rest)
  | c :: rest => c :: unquoteList rest

/-! ## `clean_filename` (source lines 37-43) -/

/-- Drop a single leading `/` if present (source lines 40-42). -/
def stripLeadSlash : List Char → List Char
  | [] => []
  | c :: rest => if c == '/' then rest else c :: rest

/-- Head of the list is a path separator. -/
def startsWithSlash : List Char → Bool
  | [] => false
  | c :: _ => c == '/'

/-- The list begins with two path separators. -/
def hasLeadingDoubleSlash : List Char → Bool
  | c :: d :: _ => c == '/' && d == '/'
  | _ => false

/-- `clean_filename(url)`: percent-decode the URL's path component and strip
one leading slash (source lines 37-43). -/
def clean_filename (url : String) : String :=
  ⟨stripLeadSlash (unquoteList (urlPathChars url.data))⟩

example : clean_filename "http://example.com/file.tar.gz" = "file.tar.gz" := by decide
example : clean_filename "http://example.com/path/to/file.sql.gz?token=123"
    = "path/to/file.sql.gz" := by decide
example : clean_filename "http://example.com/nested/path/backup.tar.gz"
    = "nested/path/backup.tar.gz" := by decide
example : clean_filename "http://example.com/mail/user%40example.com.tar.gz"
    = "mail/user@example.com.tar.gz" := by decide
example : clean_filename "http://example.com//foo.tar.gz" = "/foo.tar.gz" := by decide

/-! ## Filesystem model -/

/-- Filesystem state: created directories and files (latest write first).
A directory string in `dirs` stands for that directory together with all of
its ancestors, matching `os.makedirs(..., exist_ok=True)`. -/
structure FS where
  dirs : List String
  files : List (String × String)
deriving DecidableEq

/-- The empty filesystem (fresh working directory). -/
def emptyFS : FS := ⟨[], []⟩

/-- Contents of the file at `p`, if one was ever written (latest write wins). -/
def lookupFile : List (String × String) → String → Option String
  | [], _ => none
  | (k, v) :: rest, p => if p = k then some v else lookupFile rest p

/-- `open(p, "wb")` followed by writing `contents`: truncate/replace. -/
def writeFile (fs : FS) (p contents : String) : FS :=
  ⟨fs.dirs, (p, contents) :: fs.files⟩

/-- `os.makedirs(d, exist_ok=True)` (source line 57). -/
def makedirs (fs : FS) (d : String) : FS :=
  ⟨d :: fs.dirs, fs.files⟩

/-- `os.path.abspath` for the derived relative path, with the working
directory modelled as the root (no `normpath` collapsing). -/
def abspath (p : String) : String :=
  if startsWithSlash p.data then p else "/" ++ p

/-- `os.path.dirname`: everything up to the last `/`, with trailing slashes
stripped unless the head is all slashes (`posixpath.dirname`). -/
def dirname (p : String) : String :=
  match splitFirst '/' p.data.reverse with
  | (_, some restRev) =>
      if (restRev.reverse ++ ['/']).all (fun c => c == '/') then ⟨restRev.reverse ++ ['/']⟩
      else ⟨((restRev.reverse ++ ['/']).reverse.dropWhile (fun c => c == '/')).reverse⟩
  | (_, none) => ""

example : dirname (abspath "mail/test_backup.tar.gz") = "/mail" := by decide
example : dirname (abspath "f.tar.gz") = "/" := by decide

/-! ## Network model and `download_file` (source lines 46-76) -/

/-- One event of `response.content.read(8192)`: either a chunk of data (the
empty chunk signals end-of-stream, source lines 69-71) or an I/O error
raised during streaming. -/
inductive ChunkEv
  | data : String → ChunkEv
  | ioError : String → ChunkEv
deriving DecidableEq

/-- An HTTP response: status, optional `content-length` header (used only
for the progress bar total, source line 54), and the stream of read events. -/
structure Response where
  status : Nat
  contentLength : Option Nat
  events : List ChunkEv
deriving DecidableEq

/-- Behaviour of `session.get(url)`: a response, or an exception. -/
inductive NetResult
  | resp : Response → NetResult
  | exn : String → NetResult
deriving DecidableEq

/-- Network environment for a run: what each URL's request does. -/
abbrev DlEnv := String → NetResult

/-- The `while True: chunk = await response.content.read(8192)` loop (source
lines 68-73): returns the concatenation of the chunks written to the file
and, when an I/O error interrupts the stream, its message.  The loop stops
at the first empty chunk; on an error, the chunks already read remain
written (partial file). -/
def streamBody : List ChunkEv → String × Option String
  | [] => ("", none)
  | ChunkEv.data s :: rest =>
      if s = "" then ("", none)
      else (s ++ (streamBody rest).1, (streamBody rest).2)
  | ChunkEv.ioError m :: _ => ("", some m)

/-- Result of one `download_file` call: the returned value (`None` on any
failure, the local filename on success), the filesystem afterwards, and the
diagnostic lines printed. -/
structure DlResult where
  outcome : Option String
  fs : FS
  log : List String
deriving DecidableEq

/-- Chunk size passed to `response.content.read` — the literal `8192` on
source line 68; `download_file` takes no chunk-size parameter. -/
def readSize : Nat := 8192

/-- `download_file(session, url)` (source lines 46-76).  Status other than
200 returns `None` without touching the filesystem; on 200 the parent
directories are created, the streamed body (possibly partial, on an I/O
error) is written to the derived path, and any exception from the request
or the streaming loop is caught and turned into `None` plus a diagnostic. -/
def download_file (env : DlEnv) (url : String) (fs : FS) : DlResult :=
  match env url with
  | NetResult.exn e =>
      ⟨none, fs, ["Error downloading " ++ clean_filename url ++ ": " ++ e]⟩
  | NetResult.resp r =>
      if r.status ≠ 200 then
        ⟨none, fs,
         ["Failed to download " ++ clean_filename url ++ ": Status " ++ toString r.status]⟩
      else
        match (streamBody r.events).2 with
        | none =>
            ⟨some (clean_filename url),
             writeFile (makedirs fs (dirname (abspath (clean_filename url))))
               (clean_filename url) (streamBody r.events).1,
             []⟩
        | some e =>
            ⟨none,
             writeFile (makedirs fs (dirname (abspath (clean_filename url))))
               (clean_filename url) (streamBody r.events).1,
             ["Error downloading " ++ clean_filename url ++ ": " ++ e]⟩

/-- What `download_file` writes to the derived path, if anything: the
streamed body on a 200 response (partial on a stream error), nothing on a
non-200 status or a request exception. -/
def writeOf (env : DlEnv) (url : String) : Option String :=
  match env url with
  | NetResult.exn _ => none
  | NetResult.resp r => if r.status ≠ 200 then none else some (streamBody r.events).1

/-! ## `get_download_links` (source lines 12-34) -/

/-- Outcome of reading and parsing the HTML input file: the file is missing
(source lines 15-17), reading or parsing raised (caught on lines 32-34), or
parsing succeeded with the given `<a href=...>` targets in document order. -/
inductive HtmlSource
  | missing : HtmlSource
  | readError : String → HtmlSource
  | content : List String → HtmlSource
deriving DecidableEq

/-- The filter of source line 28: keep an href when `".tar.gz"` or
`".sql.gz"` occurs anywhere in it (Python substring `in`). -/
def linkSubstrOk (href : String) : Bool :=
  occursIn ".tar.gz".data href.data || occursIn ".sql.gz".data href.data

/-- `get_download_links(filename)` (source lines 12-34): the links found and
the diagnostics printed.  Every error path recovers with an empty list.
(Diagnostic texts are transliterated without quote characters.) -/
def get_download_links (filename : String) (src : HtmlSource) : List String × List String :=
  match src with
  | HtmlSource.missing => ([], ["Error: File " ++ filename ++ " not found."])
  | HtmlSource.readError e => ([], ["Error parsing file: " ++ e])
  | HtmlSource.content hrefs =>
      (hrefs.filter linkSubstrOk,
       if hrefs.filter linkSubstrOk = [] then
         ["No backup links found in the provided HTML file."]
       else [])

/-! ## Batch coordinator (source lines 79-105) -/

/-- Sequential linearisation of the batch: outcomes in input order, the
final filesystem, and the concatenated diagnostics.  Each task writes only
its own derived file, so this captures the filesystem effect of any
interleaving permitted by the scheduler below. -/
def runAll (env : DlEnv) (urls : List String) (fs : FS) :
    List (Option String) × FS × List String :=
  match urls with
  | [] => ([], fs, [])
  | u :: rest =>
      ((download_file env u fs).outcome :: (runAll env rest (download_file env u fs).fs).1,
       (runAll env rest (download_file env u fs).fs).2.1,
       (download_file env u fs).log ++ (runAll env rest (download_file env u fs).fs).2.2)

/-- Python truthiness of a `download_file` result (`if r` on line 104):
`None` and the empty string are falsy. -/
def truthy : Option String → Bool
  | none => false
  | some s => !(s == "")

/-- `downloaded = [r for r in results if r]` (source line 104). -/
def downloadedOf (results : List (Option String)) : List String :=
  (results.filter truthy).filterMap id

/-- The final tally printed by `main` (source line 105) plus the number of
network requests issued: `attempted` is `len(download_links)`, `succeeded`
the truthy results.  `main` computes no failed sequence. -/
structure BatchSummary where
  attempted : Nat
  succeeded : List String
  requests : Nat
deriving DecidableEq

/-- `main(args)` after argument handling (source lines 85-105): extract the
links; if none, return immediately with no session and no request;
otherwise run every download and report the tally. -/
def mainRun (fn : String) (src : HtmlSource) (env : DlEnv) (fs : FS) : BatchSummary × FS :=
  if (get_download_links fn src).1 = [] then (⟨0, [], 0⟩, fs)
  else
    (⟨(get_download_links fn src).1.length,
      downloadedOf (runAll env (get_download_links fn src).1 fs).1,
      (get_download_links fn src).1.length⟩,
     (runAll env (get_download_links fn src).1 fs).2.1)

/-! ## Concurrency structure (source lines 90-102)

`main` wraps every `download_file` call in `async with semaphore` where
`semaphore = asyncio.Semaphore(3)`.  The transition system below models the
phases of the spawned tasks: a task acquires a permit only when one is free
(`acquire`), and finalising its outcome — success or failure alike, since
`async with` releases on every exit path — releases the permit atomically
(`finish`). -/

/-- Capacity of the semaphore — the literal `3` on source line 92; `main`
takes no budget parameter. -/
def semaphoreCapacity : Nat := 3

/-- Phase of one `sem_download` task. -/
inductive Phase
  | waiting : Phase
  | holding : Phase
  | finished : Option String → Phase
deriving DecidableEq

/-- Scheduler state: the phase of each task and the free permits. -/
structure SchedState where
  phases : List Phase
  sem : Nat
deriving DecidableEq

/-- The task currently holds a permit (it is inside `async with semaphore`). -/
def isHolding : Phase → Bool
  | Phase.holding => true
  | _ => false

/-- Number of concurrently-active transfer tasks. -/
def activeCount (s : SchedState) : Nat := s.phases.countP isHolding

/-- Initial scheduler state for a batch: every task waiting, all permits free. -/
def initSched (urls : List String) : SchedState :=
  ⟨urls.map (fun _ => Phase.waiting), semaphoreCapacity⟩

/-- One scheduler transition: a waiting task acquires a free permit, or a
permit-holding task finalises its outcome (success or failure) and releases
its permit unconditionally. -/
inductive SchedStep : SchedState → SchedState → Prop
  | acquire (l₁ l₂ : List Phase) (n : Nat) :
      SchedStep ⟨l₁ ++ Phase.waiting :: l₂, n + 1⟩ ⟨l₁ ++ Phase.holding :: l₂, n⟩
  | finish (l₁ l₂ : List Phase) (n : Nat) (r : Option String) :
      SchedStep ⟨l₁ ++ Phase.holding :: l₂, n⟩ ⟨l₁ ++ Phase.finished r :: l₂, n + 1⟩

/-! ## Helper lemmas -/

theorem splitFirst_fst_not_mem (sep : Char) : ∀ l : List Char, sep ∉ (splitFirst sep l).1 := by
  intro l
  induction l with
  | nil => simp [splitFirst]
  | cons c rest ih =>
      by_cases h : c = sep
      · simp [splitFirst, h]
      · simp only [splitFirst, if_neg h, List.mem_cons]
        rintro (rfl | hmem)
        · exact h rfl
        · exact ih hmem

theorem splitFirst_fst_subset (sep : Char) : ∀ l : List Char, (splitFirst sep l).1 ⊆ l := by
  intro l
  induction l with
  | nil => simp [splitFirst]
  | cons c rest ih =>
      by_cases h : c = sep
      · simp [splitFirst, h]
      · simp only [splitFirst, if_neg h]
        exact List.cons_subset_cons c ih

theorem splitParams_subset (l : List Char) : splitParams l ⊆ l := by
  unfold splitParams
  by_cases h : l.contains '/'
  · simp only [h, if_true]
    intro x hx
    rcases List.mem_append.1 hx with hx | hx
    · exact List.take_subset _ _ hx
    · have h1 : x ∈ (splitFirst '/' l.reverse).1.reverse :=
        splitFirst_fst_subset ';' _ hx
      have h2 : x ∈ (splitFirst '/' l.reverse).1 := List.mem_reverse.1 h1
      have h3 : x ∈ l.reverse := splitFirst_fst_subset '/' _ h2
      exact List.mem_reverse.1 h3
  · simp only [h, if_false]
    exact splitFirst_fst_subset ';' l

theorem urlPathChars_no_query (l : List Char) : '?' ∉ urlPathChars l := by
  intro hx
  exact splitFirst_fst_not_mem '?' _ (splitParams_subset _ hx)

theorem strip_no_lead (l : List Char) (h : hasLeadingDoubleSlash l = false) :
    startsWithSlash (stripLeadSlash l) = false := by
  match l with
  | [] => rfl
  | [c] =>
      by_cases hc : c == '/'
      · simp [stripLeadSlash, hc, startsWithSlash]
      · simp [stripLeadSlash, hc, startsWithSlash]
  | c :: d :: rest =>
      by_cases hc : c == '/'
      · have hd : (d == '/') = false := by
          cases hdd : d == '/'
          · rfl
          · exfalso
            simp [hasLeadingDoubleSlash, hc, hdd] at h
        simp [stripLeadSlash, hc, startsWithSlash, hd]
      · simp [stripLeadSlash, hc, startsWithSlash]

theorem runAll_length (env : DlEnv) : ∀ (urls : List String) (fs : FS),
    (runAll env urls fs).1.length = urls.length := by
  intro urls
  induction urls with
  | nil => intro fs; rfl
  | cons u rest ih => intro fs; simp [runAll, ih]

theorem download_file_outcome_const (env : DlEnv) (u : String) (fs fs' : FS) :
    (download_file env u fs).outcome = (download_file env u fs').outcome := by
  unfold download_file
  cases henv : env u with
  | exn e => rfl
  | resp r =>
      by_cases h : r.status ≠ 200
      · simp [h]
      · simp only [h, if_false]
        cases hsb : (streamBody r.events).2 <;> simp

theorem lookup_download_file (env : DlEnv) (u : String) (fs : FS) (q : String) :
    lookupFile (download_file env u fs).fs.files q =
      match writeOf env u with
      | some c => if q = clean_filename u then some c else lookupFile fs.files q
      | none => lookupFile fs.files q := by
  unfold download_file writeOf
  cases henv : env u with
  | exn e => simp
  | resp r =>
      by_cases h : r.status ≠ 200
      · simp [h]
      · simp only [h, if_false]
        cases hsb : (streamBody r.events).2 <;>
          simp [writeFile, makedirs, lookupFile]

/-- The last write that the batch performs at path `q`, as a function of the
environment and the URL list alone. -/
def lastWriteOn (env : DlEnv) (urls : List String) (q : String) : Option String :=
  match urls with
  | [] => none
  | u :: rest =>
      match lastWriteOn env rest q with
      | some c => some c
      | none => if q = clean_filename u then writeOf env u else none

theorem lookup_runAll (env : DlEnv) : ∀ (urls : List String) (fs : FS) (q : String),
    lookupFile (runAll env urls fs).2.1.files q =
      match lastWriteOn env urls q with
      | some c => some c
      | none => lookupFile fs.files q := by
  intro urls
  induction urls with
  | nil => intro fs q; simp [runAll, lastWriteOn]
  | cons u rest ih =>
      intro fs q
      simp only [runAll, lastWriteOn]
      rw [ih]
      cases hlw : lastWriteOn env rest q with
      | some c => simp
      | none =>
          simp only []
          rw [lookup_download_file]
          cases hw : writeOf env u with
          | none => simp
          | some c => by_cases hq : q = clean_filename u <;> simp [hq]

theorem runAll_results_const (env : DlEnv) : ∀ (urls : List String) (fs fs' : FS),
    (runAll env urls fs).1 = (runAll env urls fs').1 := by
  intro urls
  induction urls with
  | nil => intros; rfl
  | cons u rest ih =>
      intro fs fs'
      simp only [runAll]
      rw [download_file_outcome_const env u fs fs',
        ih (download_file env u fs).fs (download_file env u fs').fs]

/-- Concatenation of the chunks in order. -/
def concatAll : List String → String
  | [] => ""
  | s :: rest => s ++ concatAll rest

theorem streamBody_all_data : ∀ chunks : List String, (∀ c ∈ chunks, c ≠ "") →
    streamBody (chunks.map ChunkEv.data) = (concatAll chunks, none) := by
  intro chunks
  induction chunks with
  | nil => intro _; rfl
  | cons c cs ih =>
      intro h
      have hc : ¬(c = "") := h c (by simp)
      simp [streamBody, concatAll, hc, ih (fun x hx => h x (by simp [hx]))]

theorem sched_invariant (s s' : SchedState) (h : SchedStep s s') :
    s'.sem + activeCount s' = s.sem + activeCount s := by
  cases h with
  | acquire l₁ l₂ n =>
      simp [activeCount, List.countP_append, List.countP_cons, isHolding]
      omega
  | finish l₁ l₂ n r =>
      simp [activeCount, List.countP_append, List.countP_cons, isHolding]
      omega

/-! ## Claims -/

/-- C1: in every batch run, the number of concurrently-active transfer
tasks never exceeds the concurrency budget (the semaphore capacity, 3) in
any reachable scheduler state; the free permits and the held permits always
sum to the capacity, so a task that has finalised its outcome — success or
failure — holds no permit, and when no task is active all permits are free. -/
theorem semaphore_bounds_active_transfers (urls : List String) (s : SchedState)
    (h : Relation.ReflTransGen SchedStep (initSched urls) s) :
    activeCount s ≤ semaphoreCapacity
    ∧ s.sem + activeCount s = semaphoreCapacity
    ∧ (activeCount s = 0 → s.sem = semaphoreCapacity) := by
  have key : s.sem + activeCount s = semaphoreCapacity := by
    induction h with
    | refl =>
        have h0 : activeCount (initSched urls) = 0 := by
          simp [initSched, activeCount, List.countP_eq_zero, isHolding]
        rw [h0]
        rfl
    | tail hab hbc ih => rw [sched_invariant _ _ hbc]; exact ih
  exact ⟨by omega, key, by omega⟩

/-- C1 witness: the initial state of a two-URL batch is reachable and
satisfies the bound. -/
theorem semaphore_bounds_active_transfers_witness :
    activeCount (initSched ["http://x/a.tar.gz", "http://x/b.tar.gz"]) ≤ semaphoreCapacity
    ∧ (initSched ["http://x/a.tar.gz", "http://x/b.tar.gz"]).sem
        + activeCount (initSched ["http://x/a.tar.gz", "http://x/b.tar.gz"]) = semaphoreCapacity
    ∧ (activeCount (initSched ["http://x/a.tar.gz", "http://x/b.tar.gz"]) = 0 →
        (initSched ["http://x/a.tar.gz", "http://x/b.tar.gz"]).sem = semaphoreCapacity) :=
  semaphore_bounds_active_transfers _ _ Relation.ReflTransGen.refl

/-- Modelled from the spec: the HTTP success range (2xx). -/
def specSuccessRange (s : Nat) : Bool := decide (200 ≤ s) && decide (s < 300)

/-- Environment for the C2 counterexample: every URL answers 201 Created
with a nonempty body. -/
def env201 : DlEnv := fun _ => NetResult.resp ⟨201, none, [ChunkEv.data "body"]⟩

/-- C2 counterexample: status 201 lies in the success range, yet the
transfer returns `None` and writes no file — the code accepts only status
exactly 200 (source line 49), not the success range. -/
theorem success_range_counterexample :
    specSuccessRange 201 = true
    ∧ (download_file env201 "http://example.com/a.tar.gz" emptyFS).outcome = none
    ∧ (download_file env201 "http://example.com/a.tar.gz" emptyFS).fs = emptyFS := by
  decide

/-- C2 (amended): for every URL whose HTTP response status is not exactly
200, `download_file` returns `None`, leaves the filesystem untouched, and
prints a diagnostic carrying that status; the batch continues, producing one
outcome per URL (attempted equals the batch size).  In particular a 404
yields a failure with no file written. -/
theorem non_200_status_fails_without_write (env : DlEnv) (url : String) (fs : FS)
    (r : Response) (urls : List String) (fs2 : FS)
    (henv : env url = NetResult.resp r) (hs : r.status ≠ 200) :
    (download_file env url fs).outcome = none
    ∧ (download_file env url fs).fs = fs
    ∧ (download_file env url fs).log
        = ["Failed to download " ++ clean_filename url ++ ": Status " ++ toString r.status]
    ∧ (runAll env urls fs2).1.length = urls.length := by
  refine ⟨?_, ?_, ?_, runAll_length env urls fs2⟩ <;> simp [download_file, henv, hs]

/-- Environment for the C2 witness: every URL answers 404. -/
def env404 : DlEnv := fun _ => NetResult.resp ⟨404, none, []⟩

/-- C2 witness: a 404 response yields `None`, an untouched filesystem, a
diagnostic carrying 404, and a two-URL batch still attempts both. -/
theorem non_200_status_witness :
    (download_file env404 "http://example.com/missing.tar.gz" emptyFS).outcome = none
    ∧ (download_file env404 "http://example.com/missing.tar.gz" emptyFS).fs = emptyFS
    ∧ (download_file env404 "http://example.com/missing.tar.gz" emptyFS).log
        = ["Failed to download " ++ clean_filename "http://example.com/missing.tar.gz"
            ++ ": Status " ++ toString (404 : Nat)]
    ∧ (runAll env404 ["http://example.com/missing.tar.gz", "http://example.com/b.tar.gz"]
        emptyFS).1.length = 2 :=
  non_200_status_fails_without_write env404 "http://example.com/missing.tar.gz" emptyFS
    ⟨404, none, []⟩ ["http://example.com/missing.tar.gz", "http://example.com/b.tar.gz"]
    emptyFS rfl (by decide)

/-- C3: for every URL whose response has status 200 and whose body arrives
as a sequence of (nonempty) chunks followed by end-of-stream, the transfer
creates the target's parent directories, writes a file whose contents equal
the concatenation of the chunks in order, and returns the derived path. -/
theorem status_200_streams_chunks_to_file (env : DlEnv) (url : String) (fs : FS)
    (cl : Option Nat) (chunks : List String)
    (henv : env url = NetResult.resp ⟨200, cl, chunks.map ChunkEv.data⟩)
    (hne : ∀ c ∈ chunks, c ≠ "") :
    (download_file env url fs).outcome = some (clean_filename url)
    ∧ lookupFile (download_file env url fs).fs.files (clean_filename url)
        = some (concatAll chunks)
    ∧ dirname (abspath (clean_filename url)) ∈ (download_file env url fs).fs.dirs := by
  have hsb := streamBody_all_data chunks hne
  simp [download_file, henv, hsb, writeFile, makedirs, lookupFile]

/-- Environment for the C3 witness: the mock of the repository's
`test_download_file_success` — status 200, chunks `chunk1` and `chunk2`. -/
def env200 : DlEnv := fun u =>
  if u = "http://example.com/mail/test_backup.tar.gz" then
    NetResult.resp ⟨200, some 12, [ChunkEv.data "chunk1", ChunkEv.data "chunk2"]⟩
  else NetResult.exn "unexpected"

/-- C3 witness: the concrete 200 transfer writes `chunk1chunk2` at the
derived path, creates its parent directory, and returns the path. -/
theorem status_200_streams_witness :
    (download_file env200 "http://example.com/mail/test_backup.tar.gz" emptyFS).outcome
        = some (clean_filename "http://example.com/mail/test_backup.tar.gz")
    ∧ lookupFile
        (download_file env200 "http://example.com/mail/test_backup.tar.gz" emptyFS).fs.files
        (clean_filename "http://example.com/mail/test_backup.tar.gz")
        = some (concatAll ["chunk1", "chunk2"])
    ∧ dirname (abspath (clean_filename "http://example.com/mail/test_backup.tar.gz"))
        ∈ (download_file env200 "http://example.com/mail/test_backup.tar.gz" emptyFS).fs.dirs :=
  status_200_streams_chunks_to_file env200 "http://example.com/mail/test_backup.tar.gz"
    emptyFS (some 12) ["chunk1", "chunk2"] (by decide) (by decide)

/-- C4 counterexample: the claim says the derived path never has a leading
separator, but a URL whose path component begins with two slashes keeps
one of them — only a single leading slash is stripped (source lines 40-42). -/
theorem double_slash_counterexample :
    clean_filename "http://example.com//foo.tar.gz" = "/foo.tar.gz"
    ∧ startsWithSlash (clean_filename "http://example.com//foo.tar.gz").data = true := by
  decide

/-- C4 (amended): `clean_filename` is deterministic and pure, uses only the
URL's path component, percent-decodes it, and strips the query and a single
leading separator; the result has no leading separator whenever the decoded
path component does not begin with two separators (it can retain one when
the path begins with `//`).  The two example URLs derive as claimed. -/
theorem clean_filename_properties (u v : String) :
    (urlPathChars u.data = urlPathChars v.data → clean_filename u = clean_filename v)
    ∧ ('?' ∉ urlPathChars u.data)
    ∧ (hasLeadingDoubleSlash (unquoteList (urlPathChars u.data)) = false →
        startsWithSlash (clean_filename u).data = false)
    ∧ clean_filename "http://example.com/mail/user%40example.com.tar.gz"
        = "mail/user@example.com.tar.gz"
    ∧ clean_filename "http://example.com/path/to/file.sql.gz?token=123"
        = "path/to/file.sql.gz" := by
  refine ⟨?_, urlPathChars_no_query u.data, ?_, by decide, by decide⟩
  · intro h; simp [clean_filename, h]
  · intro h
    simpa [clean_filename] using strip_no_lead (unquoteList (urlPathChars u.data)) h

/-- C4 witness: two URLs differing only in their query derive to the same
path, and a decoded path with a single leading slash yields a relative
result. -/
theorem clean_filename_witness :
    clean_filename "http://a.example/f.tar.gz?x=1" = clean_filename "http://a.example/f.tar.gz?x=2"
    ∧ ('?' ∉ urlPathChars ("http://a.example/f.tar.gz?x=1").data)
    ∧ startsWithSlash (clean_filename "http://a.example/f.tar.gz?x=1").data = false :=
  ⟨(clean_filename_properties "http://a.example/f.tar.gz?x=1" "http://a.example/f.tar.gz?x=2").1
      (by decide),
   (clean_filename_properties "http://a.example/f.tar.gz?x=1" "http://a.example/f.tar.gz?x=2").2.1,
   (clean_filename_properties "http://a.example/f.tar.gz?x=1" "http://a.example/f.tar.gz?x=2").2.2.1
      (by decide)⟩

/-- Environment for the C5 counterexample: one URL answers 404, the other
500. -/
def env5 : DlEnv := fun u =>
  if u = "http://a.example/f.tar.gz" then NetResult.resp ⟨404, none, []⟩
  else NetResult.resp ⟨500, none, []⟩

/-- C5 counterexample: the claim says the final tally partitions outcomes
into succeeded paths and failed items each carrying the URL and a failure
reason, but two batches over different failing URLs with different failure
statuses produce identical tallies (and identical filesystems) — `main`
computes only the attempted and succeeded counts (source lines 104-105),
and a failed transfer's outcome is the bare `None`. -/
theorem tally_no_url_reason_counterexample :
    mainRun "backup.html" (HtmlSource.content ["http://a.example/f.tar.gz"]) env5 emptyFS
      = mainRun "backup.html" (HtmlSource.content ["http://b.example/f.tar.gz"]) env5 emptyFS
    ∧ "http://a.example/f.tar.gz" ≠ "http://b.example/f.tar.gz"
    ∧ env5 "http://a.example/f.tar.gz" = NetResult.resp ⟨404, none, []⟩
    ∧ env5 "http://b.example/f.tar.gz" = NetResult.resp ⟨500, none, []⟩ := by
  decide

/-- C5 (amended): after all transfers complete, the tally reports
`attempted` equal to the number of input URLs regardless of outcomes and
the sequence of succeeded (truthy) results; the batch produces exactly one
outcome per URL.  Failures are not collected into the tally with their URL
and reason — each failure is only reported at failure time by a diagnostic
keyed by the derived filename. -/
theorem tally_attempted_and_succeeded (fn : String) (hrefs : List String) (env : DlEnv)
    (fs : FS) (h : (get_download_links fn (HtmlSource.content hrefs)).1 ≠ []) :
    (mainRun fn (HtmlSource.content hrefs) env fs).1.attempted
        = (get_download_links fn (HtmlSource.content hrefs)).1.length
    ∧ (mainRun fn (HtmlSource.content hrefs) env fs).1.succeeded
        = downloadedOf (runAll env (get_download_links fn (HtmlSource.content hrefs)).1 fs).1
    ∧ (runAll env (get_download_links fn (HtmlSource.content hrefs)).1 fs).1.length
        = (get_download_links fn (HtmlSource.content hrefs)).1.length := by
  refine ⟨?_, ?_, runAll_length env _ fs⟩ <;> simp [mainRun, h]

/-- C5 witness: a one-URL batch that fails with 404 still reports
attempted 1 and an empty succeeded sequence. -/
theorem tally_attempted_witness :
    (mainRun "backup.html" (HtmlSource.content ["http://a.example/f.tar.gz"]) env5
        emptyFS).1.attempted
      = (get_download_links "backup.html"
          (HtmlSource.content ["http://a.example/f.tar.gz"])).1.length
    ∧ (mainRun "backup.html" (HtmlSource.content ["http://a.example/f.tar.gz"]) env5
        emptyFS).1.succeeded
      = downloadedOf (runAll env5 (get_download_links "backup.html"
          (HtmlSource.content ["http://a.example/f.tar.gz"])).1 emptyFS).1
    ∧ (runAll env5 (get_download_links "backup.html"
        (HtmlSource.content ["http://a.example/f.tar.gz"])).1 emptyFS).1.length
      = (get_download_links "backup.html"
          (HtmlSource.content ["http://a.example/f.tar.gz"])).1.length :=
  tally_attempted_and_succeeded "backup.html" ["http://a.example/f.tar.gz"] env5 emptyFS
    (by decide)

/-- Modelled from the spec: a hyperlink target is accepted when its path
component ends with one of the accepted suffixes `.tar.gz`, `.sql.gz`. -/
def specLinkAccepted (href : String) : Bool :=
  endsWithB ".tar.gz".data (urlPathChars href.data)
    || endsWithB ".sql.gz".data (urlPathChars href.data)

/-- C6 counterexample: an href whose path merely *contains* `.tar.gz` (here
ending in `.bak`) is returned by the extractor although its path does not
end with an accepted suffix — the filter on source line 28 is a substring
test on the whole href, not a suffix test on its path. -/
theorem substring_filter_counterexample :
    (get_download_links "backup.html"
        (HtmlSource.content ["http://example.com/backup.tar.gz.bak"])).1
      = ["http://example.com/backup.tar.gz.bak"]
    ∧ specLinkAccepted "http://example.com/backup.tar.gz.bak" = false := by
  decide

/-- C6 (amended): for every HTML input, the extractor returns exactly the
hyperlink targets in which `.tar.gz` or `.sql.gz` occurs anywhere as a
substring of the whole href (not a suffix test on the path component),
preserving document order. -/
theorem link_filter_membership (fn : String) (hrefs : List String) (href : String) :
    (href ∈ (get_download_links fn (HtmlSource.content hrefs)).1 ↔
      href ∈ hrefs
        ∧ (occursIn ".tar.gz".data href.data || occursIn ".sql.gz".data href.data) = true)
    ∧ List.Sublist (get_download_links fn (HtmlSource.content hrefs)).1 hrefs := by
  constructor
  · simp [get_download_links, List.mem_filter, linkSubstrOk]
  · exact List.filter_sublist hrefs

/-- Environment for the C7 witness (never consulted: no request is made). -/
def env7 : DlEnv := fun _ => NetResult.exn "never used"

/-- C7: a missing or unreadable/unparsable HTML input is recovered by the
extractor as an empty link list plus a diagnostic, never fatally; and for
every input whose extracted link list is empty, `main` returns immediately
with attempted 0, empty succeeded sequence, zero network requests, and an
untouched filesystem. -/
theorem empty_links_short_circuit (fn msg : String) (src : HtmlSource) (env : DlEnv)
    (fs : FS) :
    (get_download_links fn HtmlSource.missing).1 = []
    ∧ (get_download_links fn (HtmlSource.readError msg)).1 = []
    ∧ (get_download_links fn HtmlSource.missing).2 ≠ []
    ∧ (get_download_links fn (HtmlSource.readError msg)).2 ≠ []
    ∧ ((get_download_links fn src).1 = [] →
        mainRun fn src env fs = (⟨0, [], 0⟩, fs)) := by
  refine ⟨rfl, rfl, by simp [get_download_links], by simp [get_download_links], ?_⟩
  intro h
  simp [mainRun, h]

/-- C7 witness: on a missing input file the extractor yields no links and
`main` reports attempted 0, no successes, no requests. -/
theorem empty_links_witness :
    (get_download_links "backup.html" HtmlSource.missing).1 = []
    ∧ mainRun "backup.html" HtmlSource.missing env7 emptyFS = (⟨0, [], 0⟩, emptyFS) :=
  ⟨(empty_links_short_circuit "backup.html" "m" HtmlSource.missing env7 emptyFS).1,
   (empty_links_short_circuit "backup.html" "m" HtmlSource.missing env7 emptyFS).2.2.2.2
     (empty_links_short_circuit "backup.html" "m" HtmlSource.missing env7 emptyFS).1⟩

/-- C8: re-running the batch against the same URLs with the same responses
yields exactly the same outcomes (no item fails on account of the files
already existing) and leaves every file with the same contents as after the
first run — `open(p, "wb")` overwrites, last write wins. -/
theorem rerun_idempotent (env : DlEnv) (urls : List String) (fs : FS) (q : String) :
    (runAll env urls (runAll env urls fs).2.1).1 = (runAll env urls fs).1
    ∧ lookupFile (runAll env urls (runAll env urls fs).2.1).2.1.files q
        = lookupFile (runAll env urls fs).2.1.files q := by
  constructor
  · exact runAll_results_const env urls _ fs
  · simp only [lookup_runAll]
    cases h : lastWriteOn env urls q <;> simp

/-- C9 counterexample: the claim says the core accepts the concurrency
budget and the chunk size as parameters and uses any supplied values, but
`main` and `download_file` take no such parameters: every run's permit
capacity is the literal 3 (source line 92) and every read uses the literal
8192 (source line 68), so a desired budget of 1 or chunk size of 1024 is
never used. -/
theorem hardcoded_constants_counterexample :
    (initSched ["http://x/a.tar.gz"]).sem = 3
    ∧ semaphoreCapacity ≠ 1
    ∧ readSize = 8192
    ∧ readSize ≠ 1024 := by
  decide

/-- C9 (amended): the concurrency budget and the chunk size are hardcoded
constants, not parameters: every batch run starts with permit capacity
`semaphoreCapacity = 3` and streams with `readSize = 8192` — the spec's
default values, with no way to supply others. -/
theorem hardcoded_budget_and_chunk_size (urls : List String) :
    (initSched urls).sem = semaphoreCapacity
    ∧ semaphoreCapacity = 3
    ∧ readSize = 8192 :=
  ⟨rfl, rfl, rfl⟩

/-- C10: an exception raised by the HTTP request, or an I/O error during
the streaming write, never propagates out of `download_file`: the error is
caught (source lines 74-76), a diagnostic is printed, and the call returns
`None` — one terminal outcome per call. -/
theorem download_errors_yield_none (env : DlEnv) (url : String) (fs : FS)
    (e : String) (r : Response) (m : String)
    (h : env url = NetResult.exn e
        ∨ (env url = NetResult.resp r ∧ r.status = 200
            ∧ (streamBody r.events).2 = some m)) :
    (download_file env url fs).outcome = none
    ∧ (download_file env url fs).log ≠ [] := by
  rcases h with h | ⟨h, h200, herr⟩
  · simp [download_file, h]
  · simp [download_file, h, h200, herr]

/-- Environment for the C10 witness: the request itself raises. -/
def env10 : DlEnv := fun _ => NetResult.exn "Connection reset"

/-- C10 witness: a request exception produces `None` plus a diagnostic. -/
theorem download_errors_witness :
    (download_file env10 "http://x/a.tar.gz" emptyFS).outcome = none
    ∧ (download_file env10 "http://x/a.tar.gz" emptyFS).log ≠ [] :=
  download_errors_yield_none env10 "http://x/a.tar.gz" emptyFS "Connection reset"
    ⟨0, none, []⟩ "m" (Or.inl rfl)
